import Mathlib

/-!
Shallow embedding of the midkb MIDI-to-HID remapper core
(src/main.rs `MidiInputHandler`, src/config.rs `Config`).

Rust `HashMap` is modelled as an association list `List (Nat × α)` whose
abstract map semantics are given by `mapGet` (first matching key), `upsert`
(replace-in-place or append) and `delKey` (remove the entry for a key).
Rust `HashSet<u8>` is modelled as a `List Nat` with membership-guarded
insertion.  Numeric types `u8`/`u16` are modelled as `Nat` (no arithmetic
in the source can overflow them: the only arithmetic is `channel + 1` with
`channel ≤ 15`).  The fallible virtual-device calls are modelled as pure
emissions of `OutputAction`s (the source logs and ignores their errors, and
they do not influence state or control flow).  The one genuinely fallible
dispatch step, `cc_key.parse::<u16>().unwrap()` in the Keyboard branch, is
modelled by returning `none` (= panic) from the dispatcher.
-/

set_option autoImplicit false

namespace Midkb

/-- Association-list lookup: first entry with the given key, as
`HashMap::get`. -/
def mapGet {α : Type} (m : List (Nat × α)) (k : Nat) : Option α :=
  match m with
  | [] => none
  | (k', v) :: rest => if k' = k then some v else mapGet rest k

/-- Association-list insert-or-replace, as `HashMap::insert`: replaces the
first entry carrying the key in place, otherwise appends a fresh entry. -/
def upsert {α : Type} (m : List (Nat × α)) (k : Nat) (v : α) : List (Nat × α) :=
  match m with
  | [] => [(k, v)]
  | (k', v') :: rest => if k' = k then (k, v) :: rest else (k', v') :: upsert rest k v

/-- Association-list deletion, as `HashMap::remove`: drops the first entry
carrying the key. -/
def delKey {α : Type} (m : List (Nat × α)) (k : Nat) : List (Nat × α) :=
  match m with
  | [] => []
  | (k', v') :: rest => if k' = k then rest else (k', v') :: delKey rest k

/-- `HashSet::insert`: add the element unless already present. -/
def insertNote (s : List Nat) (n : Nat) : List Nat :=
  if n ∈ s then s else n :: s

/-- `HashSet::remove`: drop the element (all occurrences; a set holds at
most one). -/
def removeNote (s : List Nat) (n : Nat) : List Nat :=
  s.filter (fun m => m ≠ n)

/-- `CCDirection` from src/main.rs. -/
inductive CCDirection : Type
  | Clockwise
  | CounterClockwise
  deriving DecidableEq, Repr

/-- `CCBindMode` from src/config.rs. -/
inductive CCBindMode : Type
  | Keyboard
  | Mouse
  | Toggle
  deriving DecidableEq, Repr

/-- `CCDirectionConfig` from src/config.rs: the per-control binding.
`counter_clockwise` / `clockwise` hold raw strings (key code digits or a
mouse-axis token), exactly as the TOML layer delivers them. -/
structure CCDirectionConfig : Type where
  bind_mode : CCBindMode
  counter_clockwise : Option String
  clockwise : Option String
  toggle_key : Option Nat
  deriving DecidableEq, Repr

/-- `Config` from src/config.rs, with the two string-keyed hash maps
(`cc`, `notes`) modelled as `Nat`-keyed association lists: the source only
ever queries them through `get_dir_config` / `get_key`, which build the
canonical decimal string of a `u8`. -/
structure Config : Type where
  cc : List (Nat × CCDirectionConfig)
  notes : List (Nat × Nat)
  note_channel : Option Nat
  deriving DecidableEq, Repr

/-- `NoteBinding::get_key`. -/
def Config.get_key (cfg : Config) (note : Nat) : Option Nat :=
  mapGet cfg.notes note

/-- `CCConfig::get_dir_config`. -/
def Config.get_dir_config (cfg : Config) (cc : Nat) : Option CCDirectionConfig :=
  mapGet cfg.cc cc

/-- The mutable state of `MidiInputHandler`: the rotation tracker `cc_map`
and the note multiplexer `key_note_map`. -/
structure HState : Type where
  cc_map : List (Nat × Nat)
  key_note_map : List (Nat × List Nat)
  deriving DecidableEq, Repr

/-- Both trackers start empty (`MidiInputHandler::new`). -/
def initState : HState := ⟨[], []⟩

/-- Actions emitted to the virtual output device. -/
inductive OutputAction : Type
  | Press (key : Nat)
  | Release (key : Nat)
  | MoveMouse (dx dy : Int)
  deriving DecidableEq, Repr

/-- Decimal reading of a character list: `some` of the value when every
character is a digit, `none` otherwise. -/
def digitsToNat (acc : Nat) : List Char → Option Nat
  | [] => some acc
  | c :: cs => if c.isDigit then digitsToNat (acc * 10 + (c.toNat - 48)) cs else none

/-- Rust `str::parse::<u16>()` on the binding strings: a non-empty run of
decimal digits in the `u16` range succeeds, anything else fails. -/
def parseU16 (s : String) : Option Nat :=
  match s.data with
  | [] => none
  | cs =>
      match digitsToNat 0 cs with
      | some n => if n < 65536 then some n else none
      | none => none

/-- `MidiInputHandler::handle_cc`: infer the rotation direction of a
control change and record its value.  The `none` branch of the match is the
first sighting, which already inserts before the unconditional insert on
line 62 of main.rs. -/
def handle_cc (st : HState) (cc val : Nat) : CCDirection × HState :=
  match mapGet st.cc_map cc with
  | some vel =>
      (if vel < val then CCDirection.Clockwise else CCDirection.CounterClockwise,
       { st with cc_map := upsert st.cc_map cc val })
  | none =>
      (CCDirection.Clockwise,
       { st with cc_map := upsert (upsert st.cc_map cc val) cc val })

/-- `MidiInputHandler::handle_note_press`: add `note` to the set for `key`
(creating it if absent, `entry(..).or_default()`); press the key iff the
set was empty beforehand. -/
def handle_note_press (st : HState) (note key : Nat) : List OutputAction × HState :=
  let notes_for_key := (mapGet st.key_note_map key).getD []
  let should_press_key := notes_for_key.isEmpty
  let notes' := insertNote notes_for_key note
  ((if should_press_key then [OutputAction.Press key] else []),
   { st with key_note_map := upsert st.key_note_map key notes' })

/-- `MidiInputHandler::handle_note_release`: remove `note` from the set for
`key`; when the set empties, release the key and delete the entry; when the
key was untracked, warn (no action, no state change). -/
def handle_note_release (st : HState) (note key : Nat) : List OutputAction × HState :=
  match mapGet st.key_note_map key with
  | some notes_for_key =>
      let notes' := removeNote notes_for_key note
      if notes'.isEmpty then
        ([OutputAction.Release key], { st with key_note_map := delKey st.key_note_map key })
      else
        ([], { st with key_note_map := upsert st.key_note_map key notes' })
  | none => ([], st)

/-- The channel-voice payloads handled by `handle_midi_msg`; `Other` stands
for every further `ChannelVoiceMsg` variant, all dropped by the final
wildcard arm. -/
inductive ChannelVoiceMsg : Type
  | NoteOn (note velocity : Nat)
  | NoteOff (note velocity : Nat)
  | ControlChange (control value : Nat)
  | Other
  deriving DecidableEq, Repr

/-- The channel-filter test shared by the NoteOn and NoteOff arms:
`channel as u8 + 1 != filter_channel` under `if let Some(filter_channel)`.
`channel` is the 0-based wire channel. -/
def channelFiltered (cfg : Config) (channel : Nat) : Bool :=
  match cfg.note_channel with
  | some filter_channel => channel + 1 ≠ filter_channel
  | none => false

/-- `MidiInputHandler::handle_midi_msg` on a `MidiMsg::ChannelVoice`
message: returns the emitted actions in order together with the new state,
or `none` when the handler panics (the `parse().unwrap()` calls of the
Keyboard branch). -/
def handle_midi_msg (cfg : Config) (st : HState) (channel : Nat)
    (msg : ChannelVoiceMsg) : Option (List OutputAction × HState) :=
  match msg with
  | ChannelVoiceMsg.NoteOn note velocity =>
      if channelFiltered cfg channel then some ([], st)
      else
        match cfg.get_key note with
        | some key =>
            if velocity = 0 then some (handle_note_release st note key)
            else some (handle_note_press st note key)
        | none => some ([], st)
  | ChannelVoiceMsg.NoteOff note _velocity =>
      if channelFiltered cfg channel then some ([], st)
      else
        match cfg.get_key note with
        | some key => some (handle_note_release st note key)
        | none => some ([], st)
  | ChannelVoiceMsg.ControlChange control value =>
      let dirSt := handle_cc st control value
      match cfg.get_dir_config control with
      | some cc_config =>
          match cc_config.bind_mode with
          | CCBindMode.Keyboard =>
              match dirSt.1 with
              | CCDirection.CounterClockwise =>
                  match cc_config.counter_clockwise with
                  | some cc_key =>
                      match parseU16 cc_key with
                      | some k => some ([OutputAction.Press k], dirSt.2)
                      | none => none
                  | none => some ([], dirSt.2)
              | CCDirection.Clockwise =>
                  match cc_config.clockwise with
                  | some cw_key =>
                      match parseU16 cw_key with
                      | some k => some ([OutputAction.Press k], dirSt.2)
                      | none => none
                  | none => some ([], dirSt.2)
          | CCBindMode.Mouse =>
              let speed : Int := 10
              let axis :=
                match dirSt.1 with
                | CCDirection.CounterClockwise => cc_config.counter_clockwise
                | CCDirection.Clockwise => cc_config.clockwise
              let d : Int × Int :=
                match axis with
                | some "x" => (speed, 0)
                | some "-x" => (-speed, 0)
                | some "y" => (0, speed)
                | some "-y" => (0, -speed)
                | _ => (0, 0)
              let d2 : Int × Int :=
                match dirSt.1 with
                | CCDirection.CounterClockwise => (-d.1, -d.2)
                | CCDirection.Clockwise => d
              some ([OutputAction.MoveMouse d2.1 d2.2], dirSt.2)
          | CCBindMode.Toggle =>
              match cc_config.toggle_key with
              | some toggle_key =>
                  if value = 127 then some ([OutputAction.Press toggle_key], dirSt.2)
                  else if value = 0 then some ([OutputAction.Release toggle_key], dirSt.2)
                  else some ([], dirSt.2)
              | none => some ([], dirSt.2)
      | none => some ([], dirSt.2)
  | ChannelVoiceMsg.Other => some ([], st)


/-! ### Association-list lemmas -/

theorem mapGet_upsert_self {α : Type} (m : List (Nat × α)) (k : Nat) (v : α) :
    mapGet (upsert m k v) k = some v := by
  induction m with
  | nil => simp [upsert, mapGet]
  | cons p rest ih =>
      obtain ⟨k', v'⟩ := p
      by_cases hk : k' = k <;> simp [upsert, mapGet, hk, ih]

theorem mapGet_upsert_ne {α : Type} (m : List (Nat × α)) (k k' : Nat) (v : α)
    (h : k' ≠ k) : mapGet (upsert m k v) k' = mapGet m k' := by
  induction m with
  | nil => simp [upsert, mapGet, Ne.symm h]
  | cons p rest ih =>
      obtain ⟨a, b⟩ := p
      by_cases hk : a = k
      · subst hk
        simp [upsert, mapGet, Ne.symm h]
      · simp [upsert, mapGet, hk, ih]

theorem upsert_idem_of_get {α : Type} (m : List (Nat × α)) (k : Nat) (v : α)
    (h : mapGet m k = some v) : upsert m k v = m := by
  induction m with
  | nil => simp [mapGet] at h
  | cons p rest ih =>
      obtain ⟨k', v'⟩ := p
      by_cases hk : k' = k
      · subst hk
        have hv : v' = v := by simpa [mapGet] using h
        subst hv
        simp [upsert]
      · have h' : mapGet rest k = some v := by simpa [mapGet, hk] using h
        simp [upsert, hk, ih h']

theorem mem_upsert {α : Type} (m : List (Nat × α)) (k : Nat) (v : α)
    (p : Nat × α) (hp : p ∈ upsert m k v) : p ∈ m ∨ p = (k, v) := by
  induction m with
  | nil => simp [upsert] at hp; exact Or.inr hp
  | cons q rest ih =>
      obtain ⟨a, b⟩ := q
      by_cases hk : a = k
      · subst hk
        simp [upsert] at hp
        rcases hp with h1 | h1
        · exact Or.inr h1
        · exact Or.inl (List.mem_cons_of_mem _ h1)
      · simp [upsert, hk] at hp
        rcases hp with h1 | h1
        · exact Or.inl (by simp [h1])
        · rcases ih h1 with h2 | h2
          · exact Or.inl (List.mem_cons_of_mem _ h2)
          · exact Or.inr h2

theorem mem_delKey {α : Type} (m : List (Nat × α)) (k : Nat)
    (p : Nat × α) (hp : p ∈ delKey m k) : p ∈ m := by
  induction m with
  | nil => simp [delKey] at hp
  | cons q rest ih =>
      obtain ⟨a, b⟩ := q
      by_cases hk : a = k
      · subst hk
        simp [delKey] at hp
        exact List.mem_cons_of_mem _ hp
      · simp [delKey, hk] at hp
        rcases hp with h1 | h1
        · simp [h1]
        · exact List.mem_cons_of_mem _ (ih h1)

theorem mapGet_mem {α : Type} (m : List (Nat × α)) (k : Nat) (v : α)
    (h : mapGet m k = some v) : (k, v) ∈ m := by
  induction m with
  | nil => simp [mapGet] at h
  | cons q rest ih =>
      obtain ⟨k', v'⟩ := q
      by_cases hk : k' = k
      · subst hk
        have hv : v' = v := by simpa [mapGet] using h
        subst hv
        exact List.mem_cons_self _ _
      · have h' : mapGet rest k = some v := by simpa [mapGet, hk] using h
        exact List.mem_cons_of_mem _ (ih h')

theorem insertNote_ne_nil (s : List Nat) (n : Nat) : insertNote s n ≠ [] := by
  unfold insertNote
  split
  · exact List.ne_nil_of_mem (by assumption)
  · exact List.cons_ne_nil n s

/-! ### Claim theorems -/

/-- C4: `handle_cc` (the rotation tracker's `infer`) returns `Clockwise`
when no prior value is recorded for the control number, otherwise
`Clockwise` exactly when the new value strictly exceeds the stored one and
`CounterClockwise` on ties or decreases; and in every case the stored
value for that control number afterwards equals the new value. -/
theorem handle_cc_infer_spec (st : HState) (cc val : Nat) :
    (handle_cc st cc val).1 =
      (match mapGet st.cc_map cc with
       | none => CCDirection.Clockwise
       | some prev =>
           if prev < val then CCDirection.Clockwise else CCDirection.CounterClockwise) ∧
    mapGet (handle_cc st cc val).2.cc_map cc = some val := by
  cases h : mapGet st.cc_map cc <;>
    simp [handle_cc, h, mapGet_upsert_self]

/-- C10: `handle_note_press` is idempotent per (note, key) pair: when the
note is already in the key's tracked set it emits no press edge and leaves
the multiplexer state exactly unchanged. -/
theorem note_press_idempotent (st : HState) (note key : Nat) (s : List Nat)
    (hs : mapGet st.key_note_map key = some s) (hn : note ∈ s) :
    handle_note_press st note key = ([], st) := by
  have hne : s.isEmpty = false := by
    cases s with
    | nil => cases hn
    | cons a t => rfl
  have hins : insertNote s note = s := by simp [insertNote, hn]
  have hup : upsert st.key_note_map key s = st.key_note_map :=
    upsert_idem_of_get _ _ _ hs
  simp [handle_note_press, hs, hne, hins, hup]

/-- Witness for C10: pressing note 60 for key 12 while 60 is already
tracked for 12 emits nothing and keeps the state. -/
theorem note_press_idempotent_witness :
    handle_note_press ⟨[], [(12, [60])]⟩ 60 12 = ([], ⟨[], [(12, [60])]⟩) :=
  note_press_idempotent ⟨[], [(12, [60])]⟩ 60 12 [60] rfl (by decide)

/-- C9: releasing a note for a key with no tracked set produces no action
and no state change, and doing it twice in a row behaves the same both
times (the untracked-key diagnostic branch, no underflow or panic). -/
theorem release_untracked_idempotent (st : HState) (note key : Nat)
    (h : mapGet st.key_note_map key = none) :
    handle_note_release st note key = ([], st) ∧
    handle_note_release (handle_note_release st note key).2 note key = ([], st) := by
  have h1 : handle_note_release st note key = ([], st) := by
    simp [handle_note_release, h]
  exact ⟨h1, by rw [h1]; exact h1⟩

/-- Witness for C9: double release of note 60 / key 12 from the empty
state. -/
theorem release_untracked_idempotent_witness :
    handle_note_release initState 60 12 = ([], initState) ∧
    handle_note_release (handle_note_release initState 60 12).2 60 12 = ([], initState) :=
  release_untracked_idempotent initState 60 12 rfl

/-- C8: for a mapped note that passes the channel filter, `NoteOn` with
velocity 0 is dispatched exactly like `NoteOff`: same emitted actions and
same resulting state. -/
theorem noteon_velocity_zero_is_noteoff (cfg : Config) (st : HState)
    (channel note velocity key : Nat)
    (hk : cfg.get_key note = some key)
    (hc : channelFiltered cfg channel = false) :
    handle_midi_msg cfg st channel (ChannelVoiceMsg.NoteOn note 0) =
    handle_midi_msg cfg st channel (ChannelVoiceMsg.NoteOff note velocity) := by
  simp [handle_midi_msg, hc, hk]

/-- Configuration used by the C8 witness: note 60 bound to key 12, no
channel filter. -/
def cfgC8 : Config := ⟨[], [(60, 12)], none⟩

/-- Witness for C8 at note 60 / key 12 from the empty state. -/
theorem noteon_velocity_zero_is_noteoff_witness :
    handle_midi_msg cfgC8 initState 0 (ChannelVoiceMsg.NoteOn 60 0) =
    handle_midi_msg cfgC8 initState 0 (ChannelVoiceMsg.NoteOff 60 64) :=
  noteon_velocity_zero_is_noteoff cfgC8 initState 0 60 64 12 rfl rfl

/-- C5: for a key K initially untracked and two distinct notes A and B,
the sequence press A, press B, release A, release B emits exactly one
press edge (on the first press) and exactly one release edge (on the last
release), and nothing for the middle two operations. -/
theorem note_aliasing_edges (st : HState) (A B K : Nat) (hAB : A ≠ B)
    (h0 : mapGet st.key_note_map K = none) :
    (handle_note_press st A K).1 = [OutputAction.Press K] ∧
    (handle_note_press (handle_note_press st A K).2 B K).1 = [] ∧
    (handle_note_release (handle_note_press (handle_note_press st A K).2 B K).2 A K).1
      = [] ∧
    (handle_note_release
      (handle_note_release (handle_note_press (handle_note_press st A K).2 B K).2 A K).2
      B K).1 = [OutputAction.Release K] := by
  have hBA : B ≠ A := Ne.symm hAB
  have e1 : handle_note_press st A K =
      ([OutputAction.Press K],
       { st with key_note_map := upsert st.key_note_map K [A] }) := by
    simp [handle_note_press, h0, insertNote]
  have e2 : handle_note_press
      { st with key_note_map := upsert st.key_note_map K [A] } B K =
      ([], { st with key_note_map :=
               upsert (upsert st.key_note_map K [A]) K [B, A] }) := by
    simp [handle_note_press, mapGet_upsert_self, insertNote, hBA]
  have hr1 : removeNote [B, A] A = [B] := by
    simp [removeNote, hBA]
  have e3 : handle_note_release
      { st with key_note_map := upsert (upsert st.key_note_map K [A]) K [B, A] } A K =
      ([], { st with key_note_map :=
               upsert (upsert (upsert st.key_note_map K [A]) K [B, A]) K [B] }) := by
    simp [handle_note_release, mapGet_upsert_self, hr1]
  have hr2 : removeNote [B] B = [] := by
    simp [removeNote]
  have e4 : handle_note_release
      { st with key_note_map :=
          upsert (upsert (upsert st.key_note_map K [A]) K [B, A]) K [B] } B K =
      ([OutputAction.Release K],
       { st with key_note_map :=
           delKey (upsert (upsert (upsert st.key_note_map K [A]) K [B, A]) K [B]) K }) := by
    simp [handle_note_release, mapGet_upsert_self, hr2]
  refine ⟨?_, ?_, ?_, ?_⟩ <;> simp [e1, e2, e3, e4]

/-- Witness for C5: notes 60, 61 aliased to key 12 from the empty state. -/
theorem note_aliasing_edges_witness :
    (handle_note_press initState 60 12).1 = [OutputAction.Press 12] ∧
    (handle_note_press (handle_note_press initState 60 12).2 61 12).1 = [] ∧
    (handle_note_release
      (handle_note_press (handle_note_press initState 60 12).2 61 12).2 60 12).1 = [] ∧
    (handle_note_release
      (handle_note_release
        (handle_note_press (handle_note_press initState 60 12).2 61 12).2 60 12).2
      61 12).1 = [OutputAction.Release 12] :=
  note_aliasing_edges initState 60 61 12 (by decide) rfl

/-- The note-multiplexer operations quantified over in C6: one `note_on`
or `note_off` call. -/
inductive NoteOp : Type
  | press (note key : Nat)
  | release (note key : Nat)

/-- Apply one multiplexer operation to the handler state (discarding the
emitted actions). -/
def applyNoteOp (st : HState) : NoteOp → HState
  | NoteOp.press n k => (handle_note_press st n k).2
  | NoteOp.release n k => (handle_note_release st n k).2

/-- Run a sequence of multiplexer operations from a state. -/
def runNoteOps (st : HState) (ops : List NoteOp) : HState :=
  ops.foldl applyNoteOp st

/-- No entry of a held-notes mapping stores an empty note set. -/
def noEmptySets (m : List (Nat × List Nat)) : Prop :=
  ∀ p ∈ m, p.2 ≠ []

theorem handle_note_press_state (st : HState) (note key : Nat) :
    (handle_note_press st note key).2.key_note_map =
      upsert st.key_note_map key
        (insertNote ((mapGet st.key_note_map key).getD []) note) := by
  simp [handle_note_press]

theorem handle_note_release_state (st : HState) (note key : Nat) :
    (handle_note_release st note key).2.key_note_map =
      (match mapGet st.key_note_map key with
       | some s =>
           if (removeNote s note).isEmpty then delKey st.key_note_map key
           else upsert st.key_note_map key (removeNote s note)
       | none => st.key_note_map) := by
  cases hg : mapGet st.key_note_map key with
  | none => simp [handle_note_release, hg]
  | some s =>
      by_cases he : (removeNote s note).isEmpty <;>
        simp [handle_note_release, hg, he]

theorem noEmptySets_applyNoteOp (st : HState) (op : NoteOp)
    (h : noEmptySets st.key_note_map) :
    noEmptySets (applyNoteOp st op).key_note_map := by
  cases op with
  | press n k =>
      intro p hp
      rw [applyNoteOp, handle_note_press_state] at hp
      rcases mem_upsert _ _ _ _ hp with h1 | h1
      · exact h p h1
      · rw [h1]
        exact insertNote_ne_nil _ _
  | release n k =>
      intro p hp
      rw [applyNoteOp, handle_note_release_state] at hp
      cases hg : mapGet st.key_note_map k with
      | none =>
          rw [hg] at hp
          exact h p hp
      | some s =>
          simp only [hg] at hp
          by_cases he : (removeNote s n).isEmpty
          · rw [if_pos he] at hp
            exact h p (mem_delKey _ _ _ hp)
          · rw [if_neg he] at hp
            rcases mem_upsert _ _ _ _ hp with h1 | h1
            · exact h p h1
            · rw [h1]
              simpa [List.isEmpty_iff] using he

theorem noEmptySets_runNoteOps (st : HState) (ops : List NoteOp)
    (h : noEmptySets st.key_note_map) :
    noEmptySets (runNoteOps st ops).key_note_map := by
  induction ops generalizing st with
  | nil => exact h
  | cons op rest ih =>
      simp only [runNoteOps, List.foldl] at *
      exact ih _ (noEmptySets_applyNoteOp st op h)

/-- C6: after any sequence of `note_on` / `note_off` operations starting
from the empty state, a key code is present in the held-notes mapping iff
its note set is non-empty, and no entry ever stores an empty set. -/
theorem key_note_map_no_empty_sets (ops : List NoteOp) :
    noEmptySets (runNoteOps initState ops).key_note_map ∧
    ∀ k, (mapGet (runNoteOps initState ops).key_note_map k).isSome = true ↔
         (mapGet (runNoteOps initState ops).key_note_map k).getD [] ≠ [] := by
  have hne : noEmptySets (runNoteOps initState ops).key_note_map :=
    noEmptySets_runNoteOps initState ops (by intro p hp; cases hp)
  refine ⟨hne, fun k => ?_⟩
  cases hg : mapGet (runNoteOps initState ops).key_note_map k with
  | none => simp
  | some s => simpa using hne _ (mapGet_mem _ _ _ hg)

/-- C7: for a control bound in Toggle mode with a configured toggle key,
the inferred direction is ignored and the raw value alone decides: 127
presses the toggle key, 0 releases it, anything else emits nothing, while
the rotation tracker still records the value. -/
theorem toggle_raw_value_spec (cfg : Config) (st : HState) (channel cc val : Nat)
    (bc : CCDirectionConfig) (k : Nat)
    (hb : cfg.get_dir_config cc = some bc)
    (hm : bc.bind_mode = CCBindMode.Toggle)
    (hk : bc.toggle_key = some k) :
    handle_midi_msg cfg st channel (ChannelVoiceMsg.ControlChange cc val) =
      some ((if val = 127 then [OutputAction.Press k]
             else if val = 0 then [OutputAction.Release k] else []),
            (handle_cc st cc val).2) := by
  simp [handle_midi_msg, hb, hm, hk]
  split_ifs <;> rfl

/-- Configuration used by the C7 witness: control 5 bound in Toggle mode
to key 200. -/
def cfgC7 : Config :=
  ⟨[(5, ⟨CCBindMode.Toggle, none, none, some 200⟩)], [], none⟩

/-- Witness for C7: feeding values 127, 0, 64 on control 5 yields Press,
Release, then nothing. -/
theorem toggle_raw_value_spec_witness :
    handle_midi_msg cfgC7 initState 0 (ChannelVoiceMsg.ControlChange 5 127) =
      some ([OutputAction.Press 200], ⟨[(5, 127)], []⟩) ∧
    handle_midi_msg cfgC7 ⟨[(5, 127)], []⟩ 0 (ChannelVoiceMsg.ControlChange 5 0) =
      some ([OutputAction.Release 200], ⟨[(5, 0)], []⟩) ∧
    handle_midi_msg cfgC7 ⟨[(5, 0)], []⟩ 0 (ChannelVoiceMsg.ControlChange 5 64) =
      some ([], ⟨[(5, 64)], []⟩) := by
  refine ⟨?_, ?_, ?_⟩
  · exact (toggle_raw_value_spec cfgC7 initState 0 5 127
      ⟨CCBindMode.Toggle, none, none, some 200⟩ 200 rfl rfl rfl).trans (by decide)
  · exact (toggle_raw_value_spec cfgC7 ⟨[(5, 127)], []⟩ 0 5 0
      ⟨CCBindMode.Toggle, none, none, some 200⟩ 200 rfl rfl rfl).trans (by decide)
  · exact (toggle_raw_value_spec cfgC7 ⟨[(5, 0)], []⟩ 0 5 64
      ⟨CCBindMode.Toggle, none, none, some 200⟩ 200 rfl rfl rfl).trans (by decide)

/-- Configuration for C1: channel filter 3, a Toggle binding on control 5
and note 60 bound to key 12. -/
def cfgC1 : Config :=
  ⟨[(5, ⟨CCBindMode.Toggle, none, none, some 200⟩)], [(60, 12)], some 3⟩

/-- Counterexample to C1 as stated: with the channel filter set to 3, a
ControlChange on 1-based channel 1 is still processed in full: it emits an
action and mutates the rotation tracker. -/
theorem cc_ignores_channel_filter :
    cfgC1.note_channel = some 3 ∧
    (0 : Nat) + 1 ≠ 3 ∧
    handle_midi_msg cfgC1 initState 0 (ChannelVoiceMsg.ControlChange 5 127) =
      some ([OutputAction.Press 200], ⟨[(5, 127)], []⟩) ∧
    handle_midi_msg cfgC1 initState 0 (ChannelVoiceMsg.ControlChange 5 127) ≠
      some ([], initState) := by
  refine ⟨rfl, by decide, by decide, by decide⟩

/-- C1 amended: when the channel filter is set, NoteOn and NoteOff events
whose 1-based channel differs from it produce zero actions and leave the
state (both trackers) unchanged, while ControlChange events are processed
exactly as if no filter were configured. -/
theorem channel_filter_note_events_only (cfg : Config) (st : HState)
    (channel fc : Nat) (hf : cfg.note_channel = some fc)
    (hne : channel + 1 ≠ fc) :
    (∀ note velocity,
       handle_midi_msg cfg st channel (ChannelVoiceMsg.NoteOn note velocity) =
         some ([], st)) ∧
    (∀ note velocity,
       handle_midi_msg cfg st channel (ChannelVoiceMsg.NoteOff note velocity) =
         some ([], st)) ∧
    (∀ ctl val,
       handle_midi_msg cfg st channel (ChannelVoiceMsg.ControlChange ctl val) =
         handle_midi_msg { cfg with note_channel := none } st channel
           (ChannelVoiceMsg.ControlChange ctl val)) := by
  have hcf : channelFiltered cfg channel = true := by
    simp [channelFiltered, hf, hne]
  refine ⟨fun note velocity => ?_, fun note velocity => ?_, fun ctl val => ?_⟩
  · simp [handle_midi_msg, hcf]
  · simp [handle_midi_msg, hcf]
  · rfl

/-- Witness for the amended C1: under filter 3 on 1-based channel 1, a
NoteOn and a NoteOff for the bound note 60 are dropped without effect, and
a ControlChange is handled as without the filter. -/
theorem channel_filter_note_events_only_witness :
    handle_midi_msg cfgC1 initState 0 (ChannelVoiceMsg.NoteOn 60 100) =
      some ([], initState) ∧
    handle_midi_msg cfgC1 initState 0 (ChannelVoiceMsg.NoteOff 60 0) =
      some ([], initState) ∧
    handle_midi_msg cfgC1 initState 0 (ChannelVoiceMsg.ControlChange 5 127) =
      handle_midi_msg { cfgC1 with note_channel := none } initState 0
        (ChannelVoiceMsg.ControlChange 5 127) := by
  obtain ⟨h1, h2, h3⟩ :=
    channel_filter_note_events_only cfgC1 initState 0 3 rfl (by decide)
  exact ⟨h1 60 100, h2 60 0, h3 5 127⟩

/-- The spec's per-token base delta table at step magnitude 10:
x→(10,0), -x→(-10,0), y→(0,10), -y→(0,-10), anything else (0,0). -/
def axisBaseDelta (axis : Option String) : Int × Int :=
  match axis with
  | some "x" => (10, 0)
  | some "-x" => (-10, 0)
  | some "y" => (0, 10)
  | some "-y" => (0, -10)
  | _ => (0, 0)

/-- The axis token the source selects for a direction. -/
def selectedAxis (d : CCDirection) (bc : CCDirectionConfig) : Option String :=
  match d with
  | CCDirection.CounterClockwise => bc.counter_clockwise
  | CCDirection.Clockwise => bc.clockwise

/-- Amended C2 delta: the base delta of the token selected by the
direction, negated once more when the direction is counter-clockwise. -/
def directedDelta (d : CCDirection) (bc : CCDirectionConfig) : Int × Int :=
  match d with
  | CCDirection.Clockwise => axisBaseDelta (selectedAxis d bc)
  | CCDirection.CounterClockwise =>
      (-(axisBaseDelta (selectedAxis d bc)).1, -(axisBaseDelta (selectedAxis d bc)).2)

/-- Configuration for C2: control 2 bound in Mouse mode with clockwise
axis "x" and counter-clockwise axis "-x". -/
def cfgC2 : Config :=
  ⟨[(2, ⟨CCBindMode.Mouse, some "-x", some "x", none⟩)], [], none⟩

/-- Counterexample to C2 as stated: feeding values 10 then 5 on control 2
emits MoveMouse (10, 0) twice; the second emission is not the claimed
(-10, 0), because the counter-clockwise arm negates the axis delta a
second time. -/
theorem mouse_ccw_double_negation :
    handle_midi_msg cfgC2 initState 0 (ChannelVoiceMsg.ControlChange 2 10) =
      some ([OutputAction.MoveMouse 10 0], ⟨[(2, 10)], []⟩) ∧
    handle_midi_msg cfgC2 ⟨[(2, 10)], []⟩ 0 (ChannelVoiceMsg.ControlChange 2 5) =
      some ([OutputAction.MoveMouse 10 0], ⟨[(2, 5)], []⟩) ∧
    (OutputAction.MoveMouse 10 0 : OutputAction) ≠ OutputAction.MoveMouse (-10) 0 := by
  refine ⟨by decide, by decide, by decide⟩

/-- C2 amended: in Mouse mode the dispatcher always emits one MoveMouse
whose delta is the selected token's base delta, negated when the inferred
direction is counter-clockwise, alongside the rotation-tracker update. -/
theorem mouse_delta_directed (cfg : Config) (st : HState) (channel cc val : Nat)
    (bc : CCDirectionConfig)
    (hb : cfg.get_dir_config cc = some bc)
    (hm : bc.bind_mode = CCBindMode.Mouse) :
    handle_midi_msg cfg st channel (ChannelVoiceMsg.ControlChange cc val) =
      some ([OutputAction.MoveMouse
              (directedDelta (handle_cc st cc val).1 bc).1
              (directedDelta (handle_cc st cc val).1 bc).2],
            (handle_cc st cc val).2) := by
  cases hd : (handle_cc st cc val).1 <;>
    simp [handle_midi_msg, hb, hm, hd, directedDelta, selectedAxis, axisBaseDelta]

/-- Witness for the amended C2: the spec's mouse scenario, values 10 then
5 on control 2, emits MoveMouse (10,0) and then MoveMouse (10,0). -/
theorem mouse_delta_directed_witness :
    handle_midi_msg cfgC2 initState 0 (ChannelVoiceMsg.ControlChange 2 10) =
      some ([OutputAction.MoveMouse 10 0], ⟨[(2, 10)], []⟩) ∧
    handle_midi_msg cfgC2 ⟨[(2, 10)], []⟩ 0 (ChannelVoiceMsg.ControlChange 2 5) =
      some ([OutputAction.MoveMouse 10 0], ⟨[(2, 5)], []⟩) := by
  constructor
  · exact (mouse_delta_directed cfgC2 initState 0 2 10
      ⟨CCBindMode.Mouse, some "-x", some "x", none⟩ rfl rfl).trans (by decide)
  · exact (mouse_delta_directed cfgC2 ⟨[(2, 10)], []⟩ 0 2 5
      ⟨CCBindMode.Mouse, some "-x", some "x", none⟩ rfl rfl).trans (by decide)

/-- Configuration for C3: control 7 bound in Keyboard mode whose clockwise
binding is the string "x" (a mouse-axis token, a value src/config.rs
documents as legal for the field), which does not parse as a u16 key
code. -/
def cfgC3 : Config :=
  ⟨[(7, ⟨CCBindMode.Keyboard, none, some "x", none⟩)], [], none⟩

/-- C3: evaluating the dispatcher at the failing input: a ControlChange
for a Keyboard-mode binding whose key string fails to parse hits
`parse().unwrap()` and panics (modelled as `none`), contradicting the
claim that event handling never raises a fatal error. -/
theorem keyboard_binding_parse_panic :
    handle_midi_msg cfgC3 initState 0 (ChannelVoiceMsg.ControlChange 7 64) = none := by
  decide

end Midkb
